import Mathlib

/-!
Shallow embedding of the process-stats library (src/src/process_stats.cpp).

The library keeps a process-wide cache mapping a pid to the pair
(last cumulative CPU time in seconds, last sample timestamp in epoch
milliseconds). `getProcessStats` reads raw OS counters, derives a CPU
percentage from the cached baseline, and updates the cache;
`getModuleStats` evicts stale cache entries, samples a batch of named
pids and serializes the results to a compact JSON array; `clearHistory`
empties the cache.

Modelling choices:
- doubles are modelled as rationals (the claims are about exact guards
  and formulas, not rounding);
- the mutable global `s_previous_cpu_times` becomes an explicit state
  of type `Cache`, threaded through each operation;
- the OS is an oracle: each call receives the outcome of its /proc
  reads (Linux) or its task-info query (macOS) and the current
  wall-clock time as parameters. `none` models a failed read.
-/

namespace ProcessStats

/-- Result record of `getProcessStats` (struct ProcessStatsData). -/
structure ProcessStatsData where
  cpuPercent : ℚ
  cpuTimeSeconds : ℚ
  memoryMB : ℚ
  deriving DecidableEq, Repr

/-- State of the internal cache `s_previous_cpu_times`:
pid maps to (cumulative CPU seconds at last sample, timestamp of last
sample in ms since epoch), or `none` when the pid has no entry. -/
abbrev Cache := Int → Option (ℚ × Int)

/-- Model of `clearHistory()`: the cache is emptied (`QHash::clear`).
Used both as the reset operation and as the initial empty cache. -/
def clearHistory : Cache := fun _ => none

/-- Outcome of the Linux /proc reads performed by one `getProcessStats`
call: `statLine = some (utime, stime)` when /proc/pid/stat opened and
both tick counters parsed, `none` on any failure; `vmRSSkB = some kb`
when a VmRSS line of /proc/pid/status was found and parsed, else
`none`. -/
structure LinuxProcRead where
  statLine : Option (Nat × Nat)
  vmRSSkB : Option ℚ
  deriving DecidableEq

/-- Lines 88-97: cpuTimeSeconds = (utime + stime) / clockTicks when the
stat line parsed and sysconf returned a positive tick rate, else it
stays at its initial 0. -/
def cpuTimeFromRead (clockTicks : Int) (r : LinuxProcRead) : ℚ :=
  match r.statLine with
  | some (utime, stime) =>
      if 0 < clockTicks then ((utime : ℚ) + (stime : ℚ)) / (clockTicks : ℚ) else 0
  | none => 0

/-- Lines 102-119: memoryMB = VmRSS kB / 1024 when the VmRSS line was
found, else it stays at its initial 0. -/
def memFromRead (r : LinuxProcRead) : ℚ :=
  match r.vmRSSkB with
  | some kb => kb / 1024
  | none => 0

/-- Lines 121-131 (identical to lines 57-67 on macOS): cpuPercent is 0
unless the cache holds a previous sample for this pid and the elapsed
wall-clock time is positive, in which case it is the CPU-time delta
over the elapsed seconds, times 100. -/
def computeCpuPercent (now : Int) (cache : Cache) (pid : Int) (cpuTime : ℚ) : ℚ :=
  match cache pid with
  | some (prevCpu, prevMs) =>
      let timeDelta : ℚ := ((now - prevMs : Int) : ℚ) / 1000
      let cpuDelta : ℚ := cpuTime - prevCpu
      if 0 < timeDelta then cpuDelta / timeDelta * 100 else 0
  | none => 0

/-- Linux variant of `getProcessStats(pid)` (lines 37-42 and 73-142).
Returns the stats record and the cache after the call. The pid guard
returns zeroes without touching the cache; otherwise the raw counters
are read (zero on failure), the percentage is derived from the cached
baseline, and the cache entry for pid is upserted unconditionally. -/
def getProcessStats (clockTicks : Int) (r : LinuxProcRead) (now : Int)
    (cache : Cache) (pid : Int) : ProcessStatsData × Cache :=
  if pid ≤ 0 then (⟨0, 0, 0⟩, cache)
  else
    let cpuTime := cpuTimeFromRead clockTicks r
    let mem := memFromRead r
    let pct := computeCpuPercent now cache pid cpuTime
    (⟨pct, cpuTime, mem⟩, fun k => if k = pid then some (cpuTime, now) else cache k)

/-- proc_taskinfo fields used by the macOS branch: cumulative user and
system time in microseconds, resident size in bytes. -/
structure MacTaskInfo where
  pti_total_user : Nat
  pti_total_system : Nat
  pti_resident_size : Nat
  deriving DecidableEq

/-- macOS variant of `getProcessStats(pid)` (lines 37-71). `taskInfo =
none` models proc_pidinfo returning a size other than
sizeof(proc_taskinfo); in that case the whole success block —
including the cache update — is skipped. -/
def getProcessStatsMac (taskInfo : Option MacTaskInfo) (now : Int)
    (cache : Cache) (pid : Int) : ProcessStatsData × Cache :=
  if pid ≤ 0 then (⟨0, 0, 0⟩, cache)
  else
    match taskInfo with
    | none => (⟨0, 0, 0⟩, cache)
    | some t =>
        let cpuTime : ℚ := ((t.pti_total_user + t.pti_total_system : Nat) : ℚ) / 1000000
        let mem : ℚ := (t.pti_resident_size : ℚ) / (1024 * 1024)
        let pct := computeCpuPercent now cache pid cpuTime
        (⟨pct, cpuTime, mem⟩, fun k => if k = pid then some (cpuTime, now) else cache k)

/-- Lines 167-193 of `getModuleStats`: walk the name→pid entries in
iteration order, skip entries with pid ≤ 0 (warning only), and sample
the rest with `getProcessStats`, threading the cache. Each sampled
entry consumes the next oracle observation `(now, procRead)`; `idx`
indexes into the oracle stream. -/
def runEntries (clockTicks : Int) (oracle : Nat → Int × LinuxProcRead) (idx : Nat)
    (cache : Cache) : List (String × Int) → List (String × ProcessStatsData) × Cache
  | [] => ([], cache)
  | (name, pid) :: rest =>
      if pid ≤ 0 then runEntries clockTicks oracle idx cache rest
      else
        let ob := oracle idx
        let sc := getProcessStats clockTicks ob.2 ob.1 cache pid
        let rc := runEntries clockTicks oracle (idx + 1) sc.2 rest
        ((name, sc.1) :: rc.1, rc.2)

/-- Model of `getModuleStats(processes)` before serialization (lines
144-193, Linux): first every cache entry whose key is not among the
pid values of the input is erased (lines 150-165), then the entries
are sampled in order. Returns the named results and the final cache. -/
def getModuleStats (clockTicks : Int) (oracle : Nat → Int × LinuxProcRead)
    (cache : Cache) (processes : List (String × Int)) :
    List (String × ProcessStatsData) × Cache :=
  let activePids := processes.map Prod.snd
  let evicted : Cache := fun k => if k ∈ activePids then cache k else none
  runEntries clockTicks oracle 0 evicted processes

/-- JSON scalar values appearing in the batch output objects. -/
inductive JVal where
  | num : ℚ → JVal
  | str : String → JVal
  deriving DecidableEq

/-- Lines 181-185: the JSON object built for one module, as its ordered
member list (insertion order of the source). -/
def moduleObj (name : String) (s : ProcessStatsData) : List (String × JVal) :=
  [("name", JVal.str name),
   ("cpu_percent", JVal.num s.cpuPercent),
   ("cpu_time_seconds", JVal.num s.cpuTimeSeconds),
   ("memory_mb", JVal.num s.memoryMB)]

/-- Render one JSON scalar; the encoding of a number to text is kept
abstract as the parameter `render` (QJsonDocument's double formatting
is library behaviour, not repository code). -/
def renderJVal (render : ℚ → String) : JVal → String
  | JVal.num q => render q
  | JVal.str s => "\"" ++ s ++ "\""

/-- Render one key:value member of a compact JSON object. -/
def renderMember (render : ℚ → String) (m : String × JVal) : String :=
  "\"" ++ m.1 ++ "\":" ++ renderJVal render m.2

/-- Render a compact JSON object. -/
def renderObj (render : ℚ → String) (members : List (String × JVal)) : String :=
  "\x7b" ++ String.intercalate "," (members.map (renderMember render)) ++ "\x7d"

/-- Render a compact JSON array of objects, as
QJsonDocument::toJson(Compact) lays it out. -/
def renderArr (render : ℚ → String) (objs : List (List (String × JVal))) : String :=
  "[" ++ String.intercalate "," (objs.map (renderObj render)) ++ "]"

/-- Full model of `getModuleStats` including serialization (lines
196-206): render the per-module objects as a compact JSON array. -/
def getModuleStatsJson (render : ℚ → String) (clockTicks : Int)
    (oracle : Nat → Int × LinuxProcRead) (cache : Cache)
    (processes : List (String × Int)) : String :=
  renderArr render
    (((getModuleStats clockTicks oracle cache processes).1).map
      (fun e => moduleObj e.1 e.2))

/-- C6: for pid ≤ 0, getProcessStats returns the all-zero record at
once and the returned cache is exactly the incoming one. -/
theorem getProcessStats_invalid_pid (clockTicks : Int) (r : LinuxProcRead)
    (now : Int) (cache : Cache) (pid : Int) (h : pid ≤ 0) :
    getProcessStats clockTicks r now cache pid = (⟨0, 0, 0⟩, cache) := by
  simp [getProcessStats, h]

/-- Witness for C6 at pid = -1: the hypothesis holds and the call
returns zeroes with the empty cache untouched. -/
theorem getProcessStats_invalid_pid_witness :
    (-1 : Int) ≤ 0 ∧
      getProcessStats 100 ⟨none, none⟩ 0 clearHistory (-1) = (⟨0, 0, 0⟩, clearHistory) :=
  ⟨by decide, getProcessStats_invalid_pid 100 ⟨none, none⟩ 0 clearHistory (-1) (by decide)⟩

/-- C1: for pid > 0, the returned cpuPercent is exactly: 0 when the
cache has no entry for pid; the CPU-time delta over the elapsed
seconds, times 100, when an entry exists and the elapsed seconds are
positive; and 0 otherwise. The division is therefore always guarded. -/
theorem getProcessStats_cpuPercent_spec (clockTicks : Int) (r : LinuxProcRead)
    (now : Int) (cache : Cache) (pid : Int) (hpid : 0 < pid) :
    (cache pid = none → (getProcessStats clockTicks r now cache pid).1.cpuPercent = 0) ∧
    (∀ prevCpu prevMs, cache pid = some (prevCpu, prevMs) →
      (0 < ((now - prevMs : Int) : ℚ) / 1000 →
        (getProcessStats clockTicks r now cache pid).1.cpuPercent =
          ((getProcessStats clockTicks r now cache pid).1.cpuTimeSeconds - prevCpu) /
            (((now - prevMs : Int) : ℚ) / 1000) * 100) ∧
      (¬ 0 < ((now - prevMs : Int) : ℚ) / 1000 →
        (getProcessStats clockTicks r now cache pid).1.cpuPercent = 0)) := by
  have hng : ¬ pid ≤ 0 := not_le.mpr hpid
  refine ⟨fun hc => ?_, fun prevCpu prevMs hc => ⟨fun hpos => ?_, fun hneg => ?_⟩⟩
  · simp [getProcessStats, hng, computeCpuPercent, hc]
  · simp only [getProcessStats, if_neg hng, computeCpuPercent, hc]
    rw [if_pos hpos]
  · simp only [getProcessStats, if_neg hng, computeCpuPercent, hc]
    rw [if_neg hneg]

/-- Cache used by witnesses: pid 1 was last sampled at 0 cumulative CPU
seconds, at epoch-millisecond 1000. -/
def wCache : Cache := fun k => if k = 1 then some (0, 1000) else none

/-- Witness for C1: with a baseline of (0 s, 1000 ms) for pid 1, a
sample at 2000 ms reading 5+5 ticks at 100 ticks per second yields
cpuPercent = ((0.1 - 0) / 1) * 100 = 10. -/
theorem getProcessStats_cpuPercent_spec_witness :
    (0 : Int) < 1 ∧
      (getProcessStats 100 ⟨some (5, 5), some 2048⟩ 2000 wCache 1).1.cpuPercent = 10 := by
  refine ⟨by decide, ?_⟩
  have h := ((getProcessStats_cpuPercent_spec 100 ⟨some (5, 5), some 2048⟩ 2000 wCache 1
      (by decide)).2 0 1000 (by simp [wCache])).1 (by norm_num)
  rw [h]
  norm_num [getProcessStats, cpuTimeFromRead]

/-- C10: a getProcessStats call changes no cache entry other than the
one for its own pid, and for pid ≤ 0 the whole cache is unchanged. -/
theorem getProcessStats_frame (clockTicks : Int) (r : LinuxProcRead)
    (now : Int) (cache : Cache) (pid : Int) :
    (∀ k, k ≠ pid → (getProcessStats clockTicks r now cache pid).2 k = cache k) ∧
    (pid ≤ 0 → (getProcessStats clockTicks r now cache pid).2 = cache) := by
  constructor
  · intro k hk
    by_cases hp : pid ≤ 0
    · simp [getProcessStats, hp]
    · simp [getProcessStats, hp, hk]
  · intro hp
    simp [getProcessStats, hp]

/-- Witness for C10: sampling pid 3 leaves key 5 untouched, and a call
with pid -2 returns the cache unchanged. -/
theorem getProcessStats_frame_witness :
    ((5 : Int) ≠ 3 ∧ (getProcessStats 100 ⟨none, none⟩ 0 clearHistory 3).2 5 = clearHistory 5) ∧
    ((-2 : Int) ≤ 0 ∧ (getProcessStats 100 ⟨none, none⟩ 0 clearHistory (-2)).2 = clearHistory) :=
  ⟨⟨by decide, (getProcessStats_frame 100 ⟨none, none⟩ 0 clearHistory 3).1 5 (by decide)⟩,
   ⟨by decide, (getProcessStats_frame 100 ⟨none, none⟩ 0 clearHistory (-2)).2 (by decide)⟩⟩

/-- Counterexample to C3: on the macOS variant a failed task-info
lookup (pid 1, empty cache) skips the upsert entirely — afterwards the
cache still has no entry for pid 1, so the upsert is not
unconditional. -/
theorem mac_no_upsert_on_failed_lookup :
    (getProcessStatsMac none 0 clearHistory 1).2 1 = none := by
  decide

/-- C3 as amended: the Linux variant upserts the cache entry for every
pid > 0 unconditionally, even when the reads failed; the macOS variant
upserts only when the task-info lookup succeeded, and on a failed
lookup returns the cache unchanged. -/
theorem upsert_policy :
    (∀ clockTicks r now cache pid, 0 < pid →
      (getProcessStats clockTicks r now cache pid).2 pid =
        some ((getProcessStats clockTicks r now cache pid).1.cpuTimeSeconds, now)) ∧
    (∀ t now cache pid, 0 < pid →
      (getProcessStatsMac (some t) now cache pid).2 pid =
        some ((getProcessStatsMac (some t) now cache pid).1.cpuTimeSeconds, now)) ∧
    (∀ now cache pid, (getProcessStatsMac none now cache pid).2 = cache) := by
  refine ⟨fun clockTicks r now cache pid h => ?_, fun t now cache pid h => ?_,
    fun now cache pid => ?_⟩
  · simp [getProcessStats, not_le.mpr h]
  · simp [getProcessStatsMac, not_le.mpr h]
  · by_cases hp : pid ≤ 0 <;> simp [getProcessStatsMac, hp]

/-- Witness for the amended C3: a Linux call with failed reads still
installs a (0, now) baseline for pid 5. -/
theorem upsert_policy_witness :
    (0 : Int) < 5 ∧
      (getProcessStats 100 ⟨none, none⟩ 42 clearHistory 5).2 5 =
        some ((getProcessStats 100 ⟨none, none⟩ 42 clearHistory 5).1.cpuTimeSeconds, 42) :=
  ⟨by decide, upsert_policy.1 100 ⟨none, none⟩ 42 clearHistory 5 (by decide)⟩

/-- Counterexample to C4: on Linux a call for pid 1 whose /proc reads
all failed (no counters were read) still creates the cache entry
(0, now) — an entry exists for a pid that was never successfully
sampled. -/
theorem cache_entry_without_read :
    (⟨none, none⟩ : LinuxProcRead).statLine = none ∧
      (getProcessStats 100 ⟨none, none⟩ 0 clearHistory 1).2 1 = some (0, 0) := by
  exact ⟨rfl, by decide⟩

/-- Helper: one getProcessStats call can only account for a cache entry
at its own positive pid; any other entry was there before. -/
theorem getProcessStats_cache_entry (clockTicks : Int) (r : LinuxProcRead)
    (now : Int) (cache : Cache) (pid k : Int)
    (h : (getProcessStats clockTicks r now cache pid).2 k ≠ none) :
    cache k ≠ none ∨ (k = pid ∧ 0 < pid) := by
  by_cases hp : pid ≤ 0
  · simp [getProcessStats, hp] at h
    exact Or.inl h
  · by_cases hk : k = pid
    · exact Or.inr ⟨hk, not_le.mp hp⟩
    · simp [getProcessStats, hp, hk] at h
      exact Or.inl h

/-- Helper: entries in the cache produced by runEntries come from the
incoming cache or from a positive pid of the processed list. -/
theorem runEntries_cache_entry (clockTicks : Int) (oracle : Nat → Int × LinuxProcRead) :
    ∀ (l : List (String × Int)) (idx : Nat) (cache : Cache) (k : Int),
      (runEntries clockTicks oracle idx cache l).2 k ≠ none →
        cache k ≠ none ∨ (k ∈ l.map Prod.snd ∧ 0 < k) := by
  intro l
  induction l with
  | nil =>
      intro idx cache k h
      exact Or.inl h
  | cons e rest ih =>
      intro idx cache k h
      obtain ⟨name, pid⟩ := e
      by_cases hp : pid ≤ 0
      · rw [runEntries, if_pos hp] at h
        rcases ih idx cache k h with h1 | h2
        · exact Or.inl h1
        · exact Or.inr ⟨by simp [h2.1], h2.2⟩
      · rw [runEntries, if_neg hp] at h
        rcases ih (idx + 1) _ k h with h1 | h2
        · rcases getProcessStats_cache_entry _ _ _ _ _ _ h1 with h3 | h4
          · exact Or.inl h3
          · exact Or.inr ⟨by simp [h4.1], h4.1 ▸ h4.2⟩
        · exact Or.inr ⟨by simp [h2.1], h2.2⟩

/-- C4 as amended: after any operation, a cache entry at key k implies
k was already cached before (and, for the batch, is still active) or k
is a pid the operation just sampled — with pid > 0, on Linux regardless
of read success, on macOS only when the task-info lookup succeeded; and
clearHistory leaves no entries at all. -/
theorem cache_entry_provenance :
    (∀ clockTicks r now cache pid k,
      (getProcessStats clockTicks r now cache pid).2 k ≠ none →
        cache k ≠ none ∨ (k = pid ∧ 0 < pid)) ∧
    (∀ taskInfo now cache pid k,
      (getProcessStatsMac taskInfo now cache pid).2 k ≠ none →
        cache k ≠ none ∨ (k = pid ∧ 0 < pid ∧ taskInfo ≠ none)) ∧
    (∀ clockTicks oracle cache processes k,
      (getModuleStats clockTicks oracle cache processes).2 k ≠ none →
        (cache k ≠ none ∧ k ∈ processes.map Prod.snd) ∨
          (k ∈ processes.map Prod.snd ∧ 0 < k)) ∧
    (∀ k, clearHistory k = none) := by
  refine ⟨fun clockTicks r now cache pid k h =>
      getProcessStats_cache_entry clockTicks r now cache pid k h,
    fun taskInfo now cache pid k h => ?_,
    fun clockTicks oracle cache processes k h => ?_,
    fun k => rfl⟩
  · by_cases hp : pid ≤ 0
    · simp [getProcessStatsMac, hp] at h
      exact Or.inl h
    · match taskInfo with
      | none =>
          simp [getProcessStatsMac, hp] at h
          exact Or.inl h
      | some t =>
          by_cases hk : k = pid
          · exact Or.inr ⟨hk, not_le.mp hp, by simp⟩
          · simp [getProcessStatsMac, hp, hk] at h
            exact Or.inl h
  · rcases runEntries_cache_entry clockTicks oracle processes 0 _ k h with h1 | h2
    · by_cases hm : k ∈ processes.map Prod.snd
      · exact Or.inl ⟨by simpa [hm] using h1, hm⟩
      · exact absurd (by simp [hm]) h1
    · exact Or.inr h2

/-- Witness for the amended C4: sampling pid 3 from the empty cache
leaves an entry at key 3, and the provenance theorem attributes it to
the sampled pid (3 = 3 and 3 > 0). -/
theorem cache_entry_provenance_witness :
    ((getProcessStats 100 ⟨some (1, 1), none⟩ 7 clearHistory 3).2 3 ≠ none) ∧
      (clearHistory 3 ≠ none ∨ ((3 : Int) = 3 ∧ (0 : Int) < 3)) :=
  ⟨by decide, cache_entry_provenance.1 100 ⟨some (1, 1), none⟩ 7 clearHistory 3 3 (by decide)⟩

/-- Helper: runEntries never touches a cache key that is not a pid of
the list it processes. -/
theorem runEntries_preserves_other (clockTicks : Int) (oracle : Nat → Int × LinuxProcRead) :
    ∀ (l : List (String × Int)) (idx : Nat) (cache : Cache) (P : Int),
      P ∉ l.map Prod.snd → (runEntries clockTicks oracle idx cache l).2 P = cache P := by
  intro l
  induction l with
  | nil =>
      intro idx cache P h
      rfl
  | cons e rest ih =>
      intro idx cache P h
      obtain ⟨name, pid⟩ := e
      have hP : P ≠ pid ∧ P ∉ rest.map Prod.snd := by simpa using h
      by_cases hp : pid ≤ 0
      · rw [runEntries, if_pos hp]
        exact ih idx cache P hP.2
      · rw [runEntries, if_neg hp]
        rw [ih (idx + 1) _ P hP.2]
        simp [getProcessStats, hp, hP.1]

/-- C2: a getModuleStats call erases every cache entry whose key is not
among the pid values of its input, so a later getProcessStats call for
an evicted pid P > 0 finds no baseline and reports cpuPercent = 0, as
on a first call. -/
theorem getModuleStats_eviction (clockTicks : Int) (oracle : Nat → Int × LinuxProcRead)
    (cache : Cache) (processes : List (String × Int))
    (clockTicks2 : Int) (r2 : LinuxProcRead) (now2 : Int) (P : Int)
    (hP : P ∉ processes.map Prod.snd) (hP0 : 0 < P) :
    (∀ Q, Q ∉ processes.map Prod.snd →
      (getModuleStats clockTicks oracle cache processes).2 Q = none) ∧
    (getProcessStats clockTicks2 r2 now2
      (getModuleStats clockTicks oracle cache processes).2 P).1.cpuPercent = 0 := by
  have hnone : ∀ Q, Q ∉ processes.map Prod.snd →
      (getModuleStats clockTicks oracle cache processes).2 Q = none := by
    intro Q hQ
    simp only [getModuleStats]
    rw [runEntries_preserves_other clockTicks oracle processes 0 _ Q hQ]
    simp [hQ]
  refine ⟨hnone, ?_⟩
  simp [getProcessStats, not_le.mpr hP0, computeCpuPercent, hnone P hP]

/-- Witness for C2: the cache knows pid 1, a batch naming only pid 2 is
sampled, and the following single sample of pid 1 reports zero
cpuPercent because its entry was evicted. -/
theorem getModuleStats_eviction_witness :
    ((1 : Int) ∉ (([("a", 2)] : List (String × Int)).map Prod.snd) ∧ (0 : Int) < 1) ∧
      (getProcessStats 100 ⟨some (5, 5), some 1⟩ 3000
        (getModuleStats 100 (fun _ => (2000, ⟨some (1, 1), none⟩)) wCache
          [("a", 2)]).2 1).1.cpuPercent = 0 :=
  ⟨⟨by decide, by decide⟩,
    (getModuleStats_eviction 100 (fun _ => (2000, ⟨some (1, 1), none⟩)) wCache
      [("a", 2)] 100 ⟨some (5, 5), some 1⟩ 3000 1 (by decide) (by decide)).2⟩

/-- Helper: the percentage derived from an existing baseline is
non-negative whenever the new cumulative CPU time is at least the
cached one, in either branch of the elapsed-time guard. -/
theorem computeCpuPercent_nonneg (now : Int) (cache : Cache) (pid : Int)
    (cpuTime prevCpu : ℚ) (prevMs : Int)
    (hc : cache pid = some (prevCpu, prevMs)) (h1 : prevCpu ≤ cpuTime) :
    0 ≤ computeCpuPercent now cache pid cpuTime := by
  simp only [computeCpuPercent, hc]
  by_cases hd : (0 : ℚ) < ((now - prevMs : Int) : ℚ) / 1000
  · rw [if_pos hd]
    exact mul_nonneg (div_nonneg (sub_nonneg.mpr h1) hd.le) (by norm_num)
  · rw [if_neg hd]

/-- C5: when two samples of the same pid > 0 are separated by positive
wall-clock time and the cumulative CPU time did not decrease, the
second call reports a non-negative cpuPercent. -/
theorem getProcessStats_second_sample_nonneg (clockTicks1 clockTicks2 : Int)
    (r1 r2 : LinuxProcRead) (t1 t2 : Int) (cache : Cache) (pid : Int)
    (hpid : 0 < pid) (helapsed : t1 < t2)
    (hwork : (getProcessStats clockTicks1 r1 t1 cache pid).1.cpuTimeSeconds <
      (getProcessStats clockTicks2 r2 t2
        (getProcessStats clockTicks1 r1 t1 cache pid).2 pid).1.cpuTimeSeconds) :
    0 ≤ (getProcessStats clockTicks2 r2 t2
      (getProcessStats clockTicks1 r1 t1 cache pid).2 pid).1.cpuPercent := by
  have hng : ¬ pid ≤ 0 := not_le.mpr hpid
  have hc : (getProcessStats clockTicks1 r1 t1 cache pid).2 pid =
      some (cpuTimeFromRead clockTicks1 r1, t1) := by
    simp [getProcessStats, hng]
  have hwork' : cpuTimeFromRead clockTicks1 r1 ≤ cpuTimeFromRead clockTicks2 r2 := by
    have := hwork
    simp only [getProcessStats, if_neg hng] at this
    exact this.le
  have key := computeCpuPercent_nonneg t2 _ pid (cpuTimeFromRead clockTicks2 r2) _ t1 hc hwork'
  simpa [getProcessStats, hng] using key

/-- Witness for C5: pid 1 sampled at 10 ms-ticks then at 30 ticks of
CPU, 1000 ms apart, yields a non-negative percentage. -/
theorem getProcessStats_second_sample_nonneg_witness :
    ((0 : Int) < 1 ∧ (0 : Int) < 1000 ∧
      (getProcessStats 100 ⟨some (1, 0), none⟩ 0 clearHistory 1).1.cpuTimeSeconds <
        (getProcessStats 100 ⟨some (3, 0), none⟩ 1000
          (getProcessStats 100 ⟨some (1, 0), none⟩ 0 clearHistory 1).2 1).1.cpuTimeSeconds) ∧
    0 ≤ (getProcessStats 100 ⟨some (3, 0), none⟩ 1000
      (getProcessStats 100 ⟨some (1, 0), none⟩ 0 clearHistory 1).2 1).1.cpuPercent := by
  have hw : (getProcessStats 100 ⟨some (1, 0), none⟩ 0 clearHistory 1).1.cpuTimeSeconds <
      (getProcessStats 100 ⟨some (3, 0), none⟩ 1000
        (getProcessStats 100 ⟨some (1, 0), none⟩ 0 clearHistory 1).2 1).1.cpuTimeSeconds := by
    norm_num [getProcessStats, cpuTimeFromRead]
  exact ⟨⟨by decide, by decide, hw⟩,
    getProcessStats_second_sample_nonneg 100 100 ⟨some (1, 0), none⟩ ⟨some (3, 0), none⟩
      0 1000 clearHistory 1 (by decide) (by decide) hw⟩

/-- Helper: the names produced by runEntries are exactly the names of
the input entries whose pid is positive, in order. -/
theorem runEntries_names (clockTicks : Int) (oracle : Nat → Int × LinuxProcRead) :
    ∀ (l : List (String × Int)) (idx : Nat) (cache : Cache),
      ((runEntries clockTicks oracle idx cache l).1).map Prod.fst =
        (l.filter (fun e => 0 < e.2)).map Prod.fst := by
  intro l
  induction l with
  | nil =>
      intro idx cache
      rfl
  | cons e rest ih =>
      intro idx cache
      obtain ⟨name, pid⟩ := e
      by_cases hp : pid ≤ 0
      · have hnp : ¬ (0 < pid) := not_lt.mpr hp
        rw [runEntries, if_pos hp]
        simp [List.filter_cons, hnp, ih idx cache]
      · have hpp : 0 < pid := not_le.mp hp
        rw [runEntries, if_neg hp]
        simp [List.filter_cons, hpp, ih (idx + 1)]

/-- C7: the batch result holds exactly one entry per input name with a
positive pid, in input order, and no entry for a name whose pid is not
positive. -/
theorem getModuleStats_batch_names (clockTicks : Int) (oracle : Nat → Int × LinuxProcRead)
    (cache : Cache) (processes : List (String × Int)) :
    ((getModuleStats clockTicks oracle cache processes).1).map Prod.fst =
      (processes.filter (fun e => 0 < e.2)).map Prod.fst := by
  simp only [getModuleStats]
  exact runEntries_names clockTicks oracle processes 0 _

/-- C8: the batch output serializes as a compact JSON array — the
empty batch gives the string with the two bracket characters only;
every module object carries exactly the keys name, cpu_percent,
cpu_time_seconds and memory_mb; and the array has one object per
successfully-processed (positive-pid) entry. -/
theorem getModuleStats_serialization :
    (∀ (render : ℚ → String) (clockTicks : Int) (oracle : Nat → Int × LinuxProcRead)
        (cache : Cache), getModuleStatsJson render clockTicks oracle cache [] = "[]") ∧
    (∀ name s, (moduleObj name s).map Prod.fst =
      ["name", "cpu_percent", "cpu_time_seconds", "memory_mb"]) ∧
    (∀ (clockTicks : Int) (oracle : Nat → Int × LinuxProcRead) (cache : Cache)
        (processes : List (String × Int)),
      ((getModuleStats clockTicks oracle cache processes).1).length =
        (processes.filter (fun e => 0 < e.2)).length) := by
  refine ⟨fun render clockTicks oracle cache => rfl, fun name s => rfl,
    fun clockTicks oracle cache processes => ?_⟩
  have h := congrArg List.length (getModuleStats_batch_names clockTicks oracle cache processes)
  simpa using h

/-- C9: both public sampling operations are total functions of their
inputs — every call produces a result value. -/
theorem sampling_operations_total :
    (∀ (clockTicks : Int) (r : LinuxProcRead) (now : Int) (cache : Cache) (pid : Int),
      ∃ out : ProcessStatsData × Cache, getProcessStats clockTicks r now cache pid = out) ∧
    (∀ (render : ℚ → String) (clockTicks : Int) (oracle : Nat → Int × LinuxProcRead)
        (cache : Cache) (processes : List (String × Int)),
      ∃ s : String, getModuleStatsJson render clockTicks oracle cache processes = s) :=
  ⟨fun clockTicks r now cache pid => ⟨_, rfl⟩,
   fun render clockTicks oracle cache processes => ⟨_, rfl⟩⟩

end ProcessStats
